import Mathlib

/-!
# Verification of the coconuts saved-places store

A shallow embedding of `src/coconuts/database.py` and the relevant tool
handlers of `src/coconuts/server.py` (a SQLite-backed store of Google Maps
saved places), together with proofs settling the specification claims.

Modelling conventions:
* SQLite `REAL` columns and Python floats are modelled by exact rationals
  (`ℚ`); the in-engine trigonometric distance expression is modelled over `ℝ`.
* `datetime.now().isoformat()` is modelled by an explicit `now : String`
  argument threaded into each operation that reads the clock.
* `json.dumps`/`json.loads` on the compound columns form an exact injective
  pairing for the value shapes the program stores (lists of strings and
  string-keyed objects), so a `TEXT` column holding serialized JSON is
  modelled by the decoded value itself, with SQL `NULL` as `none`.  Python
  truthiness tests on those columns (`if place.opening_hours`,
  `if row[...]`) are translated explicitly, since `json.dumps` output is
  always a non-empty string while `None` and `{}` are falsy.
* The table `saved_places` (database.py:62-83) is a list of rows plus the
  `AUTOINCREMENT` sequence counter: every insert allocates `seq + 1` and
  rowids are never reused.
-/

namespace Coconuts

/-- The `SavedPlace` dataclass (database.py:9-41) after `__post_init__` has
normalised `types`/`photos`/`tags` to lists and filled both timestamps.
`opening_hours` (a `Dict[str, Any]` of weekday to hours text) is modelled as
an association list. -/
structure SavedPlace where
  id : Option Int := none
  name : String := ""
  address : String := ""
  latitude : ℚ := 0
  longitude : ℚ := 0
  place_id : Option String := none
  types : List String := []
  rating : Option ℚ := none
  user_ratings_total : Option Int := none
  price_level : Option Int := none
  website : Option String := none
  phone_number : Option String := none
  opening_hours : Option (List (String × String)) := none
  photos : List String := []
  notes : Option String := none
  tags : List String := []
  created_at : String := ""
  updated_at : String := ""
deriving DecidableEq, Repr

/-- One row of the `saved_places` table (database.py:62-83).  The four
JSON `TEXT` columns hold `none` for SQL `NULL` and otherwise the decoded
JSON value. -/
structure PlaceRow where
  id : Int
  name : String
  address : String
  latitude : ℚ
  longitude : ℚ
  place_id : Option String
  types : Option (List String)
  rating : Option ℚ
  user_ratings_total : Option Int
  price_level : Option Int
  website : Option String
  phone_number : Option String
  opening_hours : Option (List (String × String))
  photos : Option (List String)
  notes : Option String
  tags : Option (List String)
  created_at : String
  updated_at : String
deriving DecidableEq, Repr

/-- The database state: the `saved_places` rows in insertion (rowid) order
plus the `AUTOINCREMENT` sequence value (the largest rowid ever allocated). -/
structure DB where
  rows : List PlaceRow
  seq : Int
deriving DecidableEq, Repr

/-- `json.dumps(place.opening_hours) if place.opening_hours else None`
(database.py:116, database.py:225): Python truthiness maps both `None` and
the empty dict `{}` to a `NULL` column. -/
def serializeOpeningHours (oh : Option (List (String × String))) :
    Option (List (String × String)) :=
  match oh with
  | none => none
  | some m => if m = [] then none else some m

/-- The column tuple bound by `save_place`'s `INSERT` (database.py:98-122)
and by `update_place`'s `UPDATE ... SET` list (database.py:214-228) for a
given in-memory place: `types`/`photos`/`tags` are always `json.dumps`ed
(never `NULL`), `opening_hours` goes through the truthiness guard. -/
def SavedPlace.toRow (p : SavedPlace) (rowid : Int) : PlaceRow :=
  { id := rowid
    name := p.name
    address := p.address
    latitude := p.latitude
    longitude := p.longitude
    place_id := p.place_id
    types := some p.types
    rating := p.rating
    user_ratings_total := p.user_ratings_total
    price_level := p.price_level
    website := p.website
    phone_number := p.phone_number
    opening_hours := serializeOpeningHours p.opening_hours
    photos := some p.photos
    notes := p.notes
    tags := some p.tags
    created_at := p.created_at
    updated_at := p.updated_at }

/-- `_row_to_place` (database.py:264-285).  For the three list columns the
code is `json.loads(col) if col else []`; since `json.dumps` of a list is a
non-empty (truthy) string, this is `Option.getD [] `.  For `opening_hours`
the code is `json.loads(col) if col else None`, i.e. the identity on the
modelled column. -/
def row_to_place (r : PlaceRow) : SavedPlace :=
  { id := some r.id
    name := r.name
    address := r.address
    latitude := r.latitude
    longitude := r.longitude
    place_id := r.place_id
    types := r.types.getD []
    rating := r.rating
    user_ratings_total := r.user_ratings_total
    price_level := r.price_level
    website := r.website
    phone_number := r.phone_number
    opening_hours := r.opening_hours
    photos := r.photos.getD []
    notes := r.notes
    tags := r.tags.getD []
    created_at := r.created_at
    updated_at := r.updated_at }

/-- `save_place` (database.py:93-124).  It first refreshes
`place.updated_at` to the current time, then runs an
`INSERT OR REPLACE` that lists every column except `id`: SQLite therefore
allocates a fresh rowid (`seq + 1` under `AUTOINCREMENT`), and the
`REPLACE` conflict resolution deletes any existing row carrying the same
non-`NULL` `place_id` (the `UNIQUE` column; `NULL`s never conflict).
Returns the new state together with `cursor.lastrowid`. -/
def DB.save_place (db : DB) (p : SavedPlace) (now : String) : DB × Int :=
  let place := { p with updated_at := now }
  let newId := db.seq + 1
  let kept :=
    match place.place_id with
    | none => db.rows
    | some s => db.rows.filter (fun r => r.place_id != some s)
  ({ rows := kept ++ [place.toRow newId], seq := newId }, newId)

/-- `get_place` (database.py:126-132): point lookup by primary key. -/
def DB.get_place (db : DB) (i : Int) : Option SavedPlace :=
  (db.rows.find? (fun r => r.id == i)).map row_to_place

/-- `get_place_by_google_id` (database.py:134-140): lookup by the unique
`place_id` column. -/
def DB.get_place_by_google_id (db : DB) (s : String) : Option SavedPlace :=
  (db.rows.find? (fun r => r.place_id == some s)).map row_to_place

/-- Comparison backing `ORDER BY created_at DESC` (BINARY collation on the
ISO-8601 text, descending). -/
def createdDescLe (a b : PlaceRow) : Prop :=
  b.created_at ≤ a.created_at

instance : DecidableRel createdDescLe := fun a b =>
  inferInstanceAs (Decidable (b.created_at ≤ a.created_at))

/-- Python truthiness of the `limit: Optional[int]` argument
(`if limit:` at database.py:148 and database.py:165): `None` and `0` are
falsy. -/
def limitTruthy : Option Int → Bool
  | none => false
  | some l => l != 0

/-- SQLite `LIMIT l OFFSET o` applied to an ordered result: a negative
`LIMIT` means no limit and a negative `OFFSET` is treated as `0`. -/
def applyLimitOffset (l : Int) (o : Int) (xs : List PlaceRow) : List PlaceRow :=
  let dropped := xs.drop o.toNat
  if l < 0 then dropped else dropped.take l.toNat

/-- `get_all_places` (database.py:142-153): all rows ordered by
`created_at` descending; the `LIMIT ? OFFSET ?` clause is appended only
when `limit` is truthy, so `limit=None` and `limit=0` both return the full
table and ignore `offset`. -/
def DB.get_all_places (db : DB) (limit : Option Int) (offset : Int) :
    List SavedPlace :=
  let ordered := db.rows.insertionSort createdDescLe
  let rows :=
    if limitTruthy limit then applyLimitOffset (limit.getD 0) offset ordered
    else ordered
  rows.map row_to_place

/-- ASCII-only case folding, as performed by SQLite's built-in `LIKE`. -/
def asciiLower (s : String) : String :=
  String.mk (s.data.map Char.toLower)

/-- `col LIKE '%q%'` for a pattern built as `f"%{query}%"` with no further
wildcards inside `query`: a case-insensitive (ASCII) substring test.
A `NULL` column never matches `LIKE`. -/
def likeContains (q : String) (col : Option String) : Prop :=
  match col with
  | none => False
  | some s => (asciiLower q).data.IsInfix (asciiLower s).data

instance (q : String) (col : Option String) : Decidable (likeContains q col) :=
  match col with
  | none => inferInstanceAs (Decidable False)
  | some s =>
      inferInstanceAs (Decidable ((asciiLower q).data.IsInfix (asciiLower s).data))

/-- One character of `json.dumps` output for a string, with the standard
escapes (`\"`, `\\`, and `\uXXXX` for other control characters, of which
`\n`, `\r`, `\t` have short forms). -/
def jsonEscapeChar (c : Char) : String :=
  if c = '"' then "\\\""
  else if c = '\\' then "\\\\"
  else if c = '\n' then "\\n"
  else if c = '\r' then "\\r"
  else if c = '\t' then "\\t"
  else if c.toNat < 32 then "\\u00" ++ String.mk [Nat.digitChar (c.toNat / 16), Nat.digitChar (c.toNat % 16)]
  else String.mk [c]

/-- `json.dumps` of one string value. -/
def jsonDumpString (s : String) : String :=
  "\"" ++ String.join (s.data.map jsonEscapeChar) ++ "\""

/-- `json.dumps` of a list of strings (default separators: `", "`), the
text stored in the `tags` column and scanned by the `LIKE` searches. -/
def jsonDumpStringList (l : List String) : String :=
  "[" ++ String.intercalate ", " (l.map jsonDumpString) ++ "]"

/-- The serialized text of a `TEXT` column holding a JSON string list, for
`LIKE` matching (`none` for `NULL`). -/
def tagsText (t : Option (List String)) : Option String :=
  t.map jsonDumpStringList

/-- `search_places` (database.py:155-170): rows whose `name`, `address`, or
serialized `tags` text contains the query, ordered by `created_at`
descending; `LIMIT` appended only when `limit` is truthy. -/
def DB.search_places (db : DB) (q : String) (limit : Option Int) :
    List SavedPlace :=
  let matched := db.rows.filter (fun r =>
    decide (likeContains q (some r.name)) ||
    decide (likeContains q (some r.address)) ||
    decide (likeContains q (tagsText r.tags)))
  let ordered := matched.insertionSort createdDescLe
  let rows :=
    if limitTruthy limit then applyLimitOffset (limit.getD 0) 0 ordered
    else ordered
  rows.map row_to_place

/-- `delete_place` (database.py:232-237). -/
def DB.delete_place (db : DB) (i : Int) : DB × Bool :=
  let remaining := db.rows.filter (fun r => r.id != i)
  ({ db with rows := remaining }, remaining.length != db.rows.length)

/-- The `**updates` keyword mapping passed to `update_place`
(database.py:197).  A `some` field is a key present in the mapping (whose
value may itself be `None`, hence the nested `Option` on optional
attributes); `unknown_keys` are keys that are not attributes of
`SavedPlace` — the `hasattr` guard (database.py:208) skips them, but they
still make the mapping non-empty. -/
structure FieldUpdates where
  id : Option (Option Int) := none
  name : Option String := none
  address : Option String := none
  latitude : Option ℚ := none
  longitude : Option ℚ := none
  place_id : Option (Option String) := none
  types : Option (List String) := none
  rating : Option (Option ℚ) := none
  user_ratings_total : Option (Option Int) := none
  price_level : Option (Option Int) := none
  website : Option (Option String) := none
  phone_number : Option (Option String) := none
  opening_hours : Option (Option (List (String × String))) := none
  photos : Option (List String) := none
  notes : Option (Option String) := none
  tags : Option (List String) := none
  created_at : Option String := none
  updated_at : Option String := none
  unknown_keys : List String := []
deriving DecidableEq, Repr

/-- Python's `if not updates:` (database.py:199): the keyword dict is falsy
iff it contains no key at all. -/
def FieldUpdates.isEmpty (u : FieldUpdates) : Bool :=
  u.id.isNone && u.name.isNone && u.address.isNone && u.latitude.isNone &&
  u.longitude.isNone && u.place_id.isNone && u.types.isNone &&
  u.rating.isNone && u.user_ratings_total.isNone && u.price_level.isNone &&
  u.website.isNone && u.phone_number.isNone && u.opening_hours.isNone &&
  u.photos.isNone && u.notes.isNone && u.tags.isNone &&
  u.created_at.isNone && u.updated_at.isNone && u.unknown_keys.isEmpty

/-- The `setattr` loop of `update_place` (database.py:207-209): each known
key overwrites the corresponding attribute of the loaded place; unknown
keys are skipped. -/
def applyUpdates (p : SavedPlace) (u : FieldUpdates) : SavedPlace :=
  { id := u.id.getD p.id
    name := u.name.getD p.name
    address := u.address.getD p.address
    latitude := u.latitude.getD p.latitude
    longitude := u.longitude.getD p.longitude
    place_id := u.place_id.getD p.place_id
    types := u.types.getD p.types
    rating := u.rating.getD p.rating
    user_ratings_total := u.user_ratings_total.getD p.user_ratings_total
    price_level := u.price_level.getD p.price_level
    website := u.website.getD p.website
    phone_number := u.phone_number.getD p.phone_number
    opening_hours := u.opening_hours.getD p.opening_hours
    photos := u.photos.getD p.photos
    notes := u.notes.getD p.notes
    tags := u.tags.getD p.tags
    created_at := u.created_at.getD p.created_at
    updated_at := u.updated_at.getD p.updated_at }

/-- The row written by `update_place`'s `UPDATE ... SET` statement
(database.py:214-228): every column except `id` and `created_at` is
rewritten from the in-memory place, with the same serialization as on
insert. -/
def writeRow (old : PlaceRow) (place : SavedPlace) : PlaceRow :=
  { id := old.id
    name := place.name
    address := place.address
    latitude := place.latitude
    longitude := place.longitude
    place_id := place.place_id
    types := some place.types
    rating := place.rating
    user_ratings_total := place.user_ratings_total
    price_level := place.price_level
    website := place.website
    phone_number := place.phone_number
    opening_hours := serializeOpeningHours place.opening_hours
    photos := some place.photos
    notes := place.notes
    tags := some place.tags
    created_at := old.created_at
    updated_at := place.updated_at }

/-- The in-memory place `update_place` builds before writing: the loaded
row with the keyword updates applied and `updated_at` refreshed
(database.py:202-211). -/
def updatedPlace (row : PlaceRow) (u : FieldUpdates) (now : String) : SavedPlace :=
  { applyUpdates (row_to_place row) u with updated_at := now }

/-- Whether rewriting row `pid`'s `place_id` to `place.place_id` violates
the `UNIQUE` constraint (database.py:69): the value is non-`NULL` and a
different row already holds it. -/
def collides (db : DB) (pid : Int) (place : SavedPlace) : Bool :=
  place.place_id.isSome &&
    db.rows.any (fun r => r.id != pid && r.place_id == place.place_id)

/-- `update_place` (database.py:197-230): returns `(db, false)` when the
keyword mapping is empty or no row has the given id; otherwise it loads the
row, applies the updates, refreshes `updated_at`, and rewrites the full
row.  The `UPDATE` re-binds `place_id`; when the resulting value is
non-`NULL` and a *different* row already holds it, SQLite raises
`IntegrityError: UNIQUE constraint failed` (uncaught by the code), modelled
as `Except.error`. -/
def DB.update_place (db : DB) (pid : Int) (u : FieldUpdates) (now : String) :
    Except String (DB × Bool) :=
  if u.isEmpty then .ok (db, false)
  else
    match db.rows.find? (fun r => r.id == pid) with
    | none => .ok (db, false)
    | some row =>
        let place := updatedPlace row u now
        if collides db pid place then
          .error "UNIQUE constraint failed: saved_places.place_id"
        else
          .ok ({ db with
                  rows := db.rows.map (fun r =>
                    if r.id == pid then writeRow r place else r) },
                true)

/-- The non-`NULL` ratings, in row order (`WHERE rating IS NOT NULL`). -/
def DB.ratings (db : DB) : List ℚ :=
  db.rows.filterMap (fun r => r.rating)

/-- SQL `AVG(rating)` over the non-`NULL` ratings (database.py:256):
`NULL` when no row qualifies. -/
def DB.avgRating (db : DB) : Option ℚ :=
  if db.ratings = [] then none
  else some (db.ratings.sum / db.ratings.length)

/-- Round-half-to-even to an integer, the rounding used by Python's
built-in `round` (modelled on the exact rational value). -/
def roundHalfEven (q : ℚ) : Int :=
  let f : Int := ⌊q⌋
  let r : ℚ := q - f
  if r < 1/2 then f
  else if 1/2 < r then f + 1
  else if f % 2 = 0 then f else f + 1

/-- Python `round(x, 2)` on the exact value. -/
def round2 (q : ℚ) : ℚ :=
  (roundHalfEven (q * 100) : ℚ) / 100

/-- The statistics fields the claims are about (`get_statistics`,
database.py:239-262).  `most_common_tags` is independent of these two
fields and is not modelled. -/
structure Stats where
  total_places : Nat
  average_rating : Option ℚ
deriving DecidableEq, Repr

/-- `get_statistics` (database.py:239-262): the row count, and
`round(avg_rating, 2) if avg_rating else None` — Python float truthiness
makes both `None` and an average of `0.0` report as `None`. -/
def DB.get_statistics (db : DB) : Stats :=
  { total_places := db.rows.length
    average_rating :=
      match db.avgRating with
      | none => none
      | some a => if a = 0 then none else some (round2 a) }

/-! ## The JSON import tool (`server.py:222-254`) -/

/-- Parsed JSON values (the output of `json.loads`): numbers are modelled
exactly as rationals. -/
inductive Json where
  | null : Json
  | bool (b : Bool) : Json
  | num (q : ℚ) : Json
  | str (s : String) : Json
  | arr (elems : List Json) : Json
  | obj (fields : List (String × Json)) : Json
deriving Repr

/-- Python `str()` of a parsed JSON value, used when interpolating
`place_data.get('name', 'Unknown')` into an error message.  Integer
numbers render exactly; non-integer numbers and nested containers are
rendered in a JSON-like form that approximates the Python `repr`. -/
def pyStr : Json → String
  | .null => "None"
  | .bool b => cond b "True" "False"
  | .num q => if q.den = 1 then toString q.num else toString q
  | .str s => s
  | .arr l => "[" ++ String.intercalate ", " (l.attach.map (fun e => pyStr e.1)) ++ "]"
  | .obj l => "\x7b" ++ String.intercalate ", " (l.attach.map (fun e => e.1.1 ++ ": " ++ pyStr e.1.2)) ++ "\x7d"
decreasing_by
  · have := List.sizeOf_lt_of_mem e.2
    simp only [Json.arr.sizeOf_spec]
    omega
  · have h1 := List.sizeOf_lt_of_mem e.2
    have h2 : sizeOf e.1.2 < sizeOf e.1 := by
      obtain ⟨⟨k, v⟩, hm⟩ := e
      simp
    simp only [Json.obj.sizeOf_spec]
    omega

/-- The attribute names of the `SavedPlace` dataclass: `SavedPlace(**d)`
raises `TypeError` exactly when `d` has a key outside this set. -/
def knownKeys : List String :=
  ["id", "name", "address", "latitude", "longitude", "place_id", "types",
   "rating", "user_ratings_total", "price_level", "website", "phone_number",
   "opening_hours", "photos", "notes", "tags", "created_at", "updated_at"]

/-- The `SavedPlace` fields that `save_place` binds directly as SQL
parameters (database.py:104-121), without `json.dumps`: a JSON array or
object in one of these positions makes `sqlite3` raise an unsupported-type
error inside `db.save_place`. -/
def rawBoundKeys : List String :=
  ["name", "address", "latitude", "longitude", "place_id", "rating",
   "user_ratings_total", "price_level", "website", "phone_number", "notes",
   "created_at", "updated_at"]

/-- Whether `sqlite3` accepts a parsed JSON value as a bind parameter
(scalars yes, containers no). -/
def sqliteBindable : Json → Bool
  | .arr _ => false
  | .obj _ => false
  | _ => true

/-- The exception text produced when importing one JSON object fails:
`none` when `SavedPlace(**fields)` and the subsequent `db.save_place`
both succeed — which, since the dataclass performs no validation, happens
exactly when every key is a known attribute and every directly-bound value
is a SQL scalar. -/
def objImportFailure (fields : List (String × Json)) : Option String :=
  match fields.find? (fun kv => !(knownKeys.contains kv.1)) with
  | some kv =>
      some ("__init__() got an unexpected keyword argument \x27" ++ kv.1 ++ "\x27")
  | none =>
      match fields.find? (fun kv => rawBoundKeys.contains kv.1 && !(sqliteBindable kv.2)) with
      | some kv => some ("Error binding parameter \x27" ++ kv.1 ++ "\x27: type not supported")
      | none => none

/-- `place_data.get('name', 'Unknown')` rendered by the f-string. -/
def importName (fields : List (String × Json)) : String :=
  ((fields.find? (fun kv => kv.1 == "name")).map (fun kv => pyStr kv.2)).getD "Unknown"

/-- The per-element loop of `import_places_from_json` (server.py:236-242):
an object element either imports (count + 1) or appends one error message
and continues; an element that is *not* an object makes `SavedPlace(**e)`
raise `TypeError`, and the `except` handler then crashes on
`place_data.get` (`AttributeError`), aborting the whole batch — modelled
as `Except.error`.  The database side effect of each successful
`db.save_place` is not modelled here: an imported place may carry arbitrary
JSON values in its fields (the dataclass does not validate), which the
typed row model does not represent; the claims about import concern only
the counts and collected messages. -/
def importLoop : List Json → Except String (Nat × List String)
  | [] => .ok (0, [])
  | e :: rest =>
      match e with
      | .obj fields =>
          match objImportFailure fields with
          | none => (importLoop rest).map (fun p => (p.1 + 1, p.2))
          | some msg =>
              (importLoop rest).map (fun p =>
                (p.1, ("Error importing place \x27" ++ importName fields ++ "\x27: " ++ msg) :: p.2))
      | _ => .error "AttributeError: object has no attribute \x27get\x27"

/-- The result envelope returned by the import tool. -/
structure ImportResult where
  success : Bool
  message : String
  imported_count : Option Nat := none
  errors : Option (List String) := none
deriving DecidableEq, Repr

/-- `import_places_from_json` (server.py:222-254), taking the outcome of
`json.loads(json_data)` as input (parse failure carries the
`JSONDecodeError` text).  An uncaught exception escaping the handler is
`Except.error`. -/
def import_places_from_json (parsed : Except String Json) :
    Except String ImportResult :=
  match parsed with
  | .error e =>
      .ok { success := false, message := "Invalid JSON data: " ++ e }
  | .ok (Json.arr elems) =>
      match importLoop elems with
      | .error e => .error e
      | .ok (cnt, errs) =>
          .ok { success := true
                message := "Imported " ++ toString cnt ++ " places successfully"
                imported_count := some cnt
                errors := some errs }
  | .ok _ =>
      .ok { success := false, message := "JSON data must be an array of places" }

/-! ## The radius query (`database.py:172-186`, `server.py:136-157`) -/

/-- SQL `radians(x)`. -/
noncomputable def radiansR (x : ℝ) : ℝ := x * Real.pi / 180

/-- The distance expression of the radius query's `SELECT`
(database.py:178-180), exactly as written:
`6371 * acos(cos(radians(qlat)) * cos(radians(lat)) *
cos(radians(lon) - radians(qlon)) + sin(radians(qlat)) * sin(radians(lat)))`.
(SQL `acos` is `Real.arccos` on in-range arguments.) -/
noncomputable def sqlDistanceR (qlat qlon plat plon : ℝ) : ℝ :=
  6371 * Real.arccos (Real.cos (radiansR qlat) * Real.cos (radiansR plat) *
    Real.cos (radiansR plon - radiansR qlon) +
    Real.sin (radiansR qlat) * Real.sin (radiansR plat))

/-- The `distance` column computed for a row by the radius query. -/
noncomputable def rowDistance (lat lon : ℚ) (r : PlaceRow) : ℝ :=
  sqlDistanceR (lat : ℝ) (lon : ℝ) (r.latitude : ℝ) (r.longitude : ℝ)

/-- The spec-side distance, written from the spec's words: "great-circle
distance ... using the Haversine formula (sphere radius 6371 km)":
`2 R arcsin (sqrt (sin² (Δφ/2) + cos φ₁ cos φ₂ sin² (Δλ/2)))`. -/
noncomputable def haversineDistanceR (qlat qlon plat plon : ℝ) : ℝ :=
  2 * 6371 * Real.arcsin (Real.sqrt (
    Real.sin ((radiansR plat - radiansR qlat) / 2) ^ 2 +
    Real.cos (radiansR qlat) * Real.cos (radiansR plat) *
      Real.sin ((radiansR plon - radiansR qlon) / 2) ^ 2))

/-- The `WHERE distance <= ?` test of the radius query. -/
noncomputable def distKeep (lat lon radius : ℚ) (r : PlaceRow) : Bool :=
  @decide (rowDistance lat lon r ≤ (radius : ℝ)) (Classical.propDecidable _)

/-- `get_places_by_location` (database.py:172-186): one pass computing the
distance expression for every row, keeping rows with `distance <= radius`,
ordered by `distance` ascending (`ORDER BY distance`), each row then
converted by `_row_to_place`. -/
noncomputable def DB.get_places_by_location (db : DB) (lat lon radius : ℚ) :
    List SavedPlace :=
  let kept := db.rows.filter (distKeep lat lon radius)
  let ordered := @List.insertionSort _
    (fun a b => rowDistance lat lon a ≤ rowDistance lat lon b)
    (fun _ _ => Classical.propDecidable _) kept
  ordered.map row_to_place

/-- One entry of the `places` list built by the server tool
`get_places_by_location` (server.py:143-155). -/
structure LocationEntry where
  id : Option Int
  name : String
  address : String
  latitude : ℚ
  longitude : ℚ
  rating : Option ℚ
  tags : List String
  distance_km : Option ℝ

/-- The server tool `get_places_by_location` (server.py:136-157).  Its
`distance_km` field is `getattr(place, 'distance', None)`: the
`SavedPlace` instances built by `_row_to_place` (database.py:264-285) are
constructed from the named columns only — the SQL `distance` alias is
discarded and no `distance` attribute is ever set — so the `getattr`
always falls back to `None`. -/
noncomputable def server_get_places_by_location (db : DB) (lat lon radius : ℚ) :
    List LocationEntry :=
  (db.get_places_by_location lat lon radius).map (fun place =>
    { id := place.id
      name := place.name
      address := place.address
      latitude := place.latitude
      longitude := place.longitude
      rating := place.rating
      tags := place.tags
      distance_km := none })

/-! ## Reachable-state invariant and helper lemmas -/

/-- The invariant every database state reachable through the store's own
operations satisfies: rowids are distinct, positive and bounded by the
`AUTOINCREMENT` sequence; non-`NULL` `place_id`s are unique (the `UNIQUE`
constraint, database.py:69); and the three list columns are never `NULL`
while `opening_hours` is never the serialization of an empty dict (both by
construction of the `INSERT`/`UPDATE` parameter tuples). -/
def DB.WF (db : DB) : Prop :=
  (db.rows.map (fun r => r.id)).Nodup ∧
  (∀ r ∈ db.rows, 0 < r.id ∧ r.id ≤ db.seq) ∧
  (db.rows.filterMap (fun r => r.place_id)).Nodup ∧
  (∀ r ∈ db.rows, r.opening_hours ≠ some [] ∧
    r.types.isSome ∧ r.photos.isSome ∧ r.tags.isSome)

instance (db : DB) : Decidable db.WF := by
  unfold DB.WF
  infer_instance

theorem eq_of_nodup_map {α β : Type} {f : α → β} {l : List α}
    (hnd : (l.map f).Nodup) {x y : α}
    (hx : x ∈ l) (hy : y ∈ l) (hxy : f x = f y) : x = y :=
  List.inj_on_of_nodup_map hnd hx hy hxy

theorem eq_of_nodup_filterMap {α β : Type} {f : α → Option β} {s : β} :
    ∀ {l : List α}, (l.filterMap f).Nodup → ∀ {x y : α},
      x ∈ l → y ∈ l → f x = some s → f y = some s → x = y := by
  intro l
  induction l with
  | nil => intro _ x y hx; cases hx
  | cons a t ih =>
      intro hnd x y hx hy hfx hfy
      have htail : (t.filterMap f).Nodup := by
        rw [List.filterMap_cons] at hnd
        cases h : f a with
        | none => rw [h] at hnd; exact hnd
        | some b => rw [h] at hnd; exact (List.nodup_cons.mp hnd).2
      rcases List.mem_cons.mp hx with hxa | hxt
      · rcases List.mem_cons.mp hy with hya | hyt
        · rw [hxa, hya]
        · exfalso
          have hfa : f a = some s := by rw [← hxa]; exact hfx
          rw [List.filterMap_cons, hfa] at hnd
          exact (List.nodup_cons.mp hnd).1 (List.mem_filterMap.mpr ⟨y, hyt, hfy⟩)
      · rcases List.mem_cons.mp hy with hya | hyt
        · exfalso
          have hfa : f a = some s := by rw [← hya]; exact hfy
          rw [List.filterMap_cons, hfa] at hnd
          exact (List.nodup_cons.mp hnd).1 (List.mem_filterMap.mpr ⟨x, hxt, hfx⟩)
        · exact ih htail hxt hyt hfx hfy

/-- With distinct rowids, the primary-key lookup finds exactly the member
row carrying that id. -/
theorem find?_id_of_mem {rows : List PlaceRow}
    (hnd : (rows.map (fun r => r.id)).Nodup) {r : PlaceRow} (hr : r ∈ rows) :
    rows.find? (fun x => x.id == r.id) = some r := by
  induction rows with
  | nil => cases hr
  | cons a t ih =>
      rw [List.map_cons, List.nodup_cons] at hnd
      rcases List.mem_cons.mp hr with rfl | hr
      · exact List.find?_cons_of_pos _ (by simp)
      · have hne : a.id ≠ r.id := by
          intro he
          exact hnd.1 (he ▸ List.mem_map_of_mem (fun r => r.id) hr)
        rw [List.find?_cons_of_neg _ (by simpa using hne)]
        exact ih hnd.2 hr

/-- How `save_place` transforms the table: the kept rows (all of them, or
all those not sharing the new non-`NULL` `place_id`) followed by the newly
inserted row, with the sequence advanced. -/
theorem save_place_unfold (db : DB) (p : SavedPlace) (now : String) :
    (db.save_place p now).1.rows =
      (match p.place_id with
       | none => db.rows
       | some s => db.rows.filter (fun r => r.place_id != some s)) ++
      [SavedPlace.toRow { p with updated_at := now } (db.seq + 1)] ∧
    (db.save_place p now).1.seq = db.seq + 1 ∧
    (db.save_place p now).2 = db.seq + 1 :=
  ⟨rfl, rfl, rfl⟩

theorem mem_of_mem_saveKept (db : DB) (p : SavedPlace) {x : PlaceRow}
    (hx : x ∈ (match p.place_id with
       | none => db.rows
       | some s => db.rows.filter (fun r => r.place_id != some s))) :
    x ∈ db.rows := by
  cases hp : p.place_id with
  | none => rw [hp] at hx; exact hx
  | some s => rw [hp] at hx; exact List.mem_of_mem_filter hx

/-! ## Concrete fixtures used by witnesses and counterexamples -/

/-- A stored row used by witnesses. -/
def rowA : PlaceRow :=
  { id := 1
    name := "Cafe"
    address := "1 Main St"
    latitude := 1
    longitude := 2
    place_id := some "gp1"
    types := some ["cafe"]
    rating := some 4
    user_ratings_total := some 10
    price_level := some 1
    website := some "w"
    phone_number := some "p"
    opening_hours := some [("mon", "9-5")]
    photos := some ["u"]
    notes := some "n"
    tags := some ["food"]
    created_at := "t0"
    updated_at := "t0" }

/-- A one-row database satisfying the invariant. -/
def dbA : DB := { rows := [rowA], seq := 1 }

/-- A place sharing `rowA`'s external id, used to exercise the upsert. -/
def placeB : SavedPlace :=
  { name := "Bar"
    address := "2 St"
    latitude := 3
    longitude := 4
    place_id := some "gp1"
    types := ["bar"]
    rating := some 5
    opening_hours := some [("tue", "1-2")]
    photos := ["ph"]
    notes := some "nb"
    tags := ["t"]
    created_at := "t1"
    updated_at := "t1" }

def placeX1 : SavedPlace :=
  { name := "A", address := "a", place_id := some "X"
    created_at := "c1", updated_at := "c1" }

def placeX2 : SavedPlace :=
  { name := "B", address := "b", place_id := some "X"
    created_at := "c2", updated_at := "c2" }

/-! ## C1: upsert on a duplicate non-null place_id -/

/-- **C1** (amended).  Saving a record whose non-null `place_id` is already
stored leaves exactly one row with that `place_id`; that row holds the
second save's field values with `updated_at` refreshed to the save time,
and `get_place_by_google_id` returns exactly those latest values.  However
the surviving row does **not** keep the original row's id: the old row is
deleted and the new row receives the freshly allocated id `seq + 1`. -/
theorem upsert_same_place_id (db : DB) (p : SavedPlace) (r : PlaceRow)
    (s now : String) (hwf : db.WF) (hr : r ∈ db.rows)
    (hrs : r.place_id = some s) (hps : p.place_id = some s) :
    (db.save_place p now).2 = db.seq + 1 ∧
    r.id ≠ (db.save_place p now).2 ∧
    r ∉ (db.save_place p now).1.rows ∧
    (db.save_place p now).1.rows.filter (fun x => x.place_id == some s) =
      [SavedPlace.toRow { p with updated_at := now } (db.seq + 1)] ∧
    (db.save_place p now).1.get_place_by_google_id s =
      some { p with
        id := some (db.seq + 1)
        updated_at := now
        opening_hours := serializeOpeningHours p.opening_hours } := by
  obtain ⟨hrows, -, hret⟩ := save_place_unfold db p now
  have hkept : (match p.place_id with
       | none => db.rows
       | some t => db.rows.filter (fun r => r.place_id != some t)) =
      db.rows.filter (fun x => x.place_id != some s) := by rw [hps]
  rw [hkept] at hrows
  have hidle : r.id ≤ db.seq := (hwf.2.1 r hr).2
  have h2 : (SavedPlace.toRow { p with updated_at := now } (db.seq + 1)).place_id
      = some s := hps
  refine ⟨hret, ?_, ?_, ?_, ?_⟩
  · rw [hret]; omega
  · rw [hrows]
    intro hmem
    rcases List.mem_append.mp hmem with hk | hn
    · have := List.of_mem_filter hk
      rw [hrs] at this
      simp at this
    · have he : r = SavedPlace.toRow { p with updated_at := now } (db.seq + 1) :=
        List.mem_singleton.mp hn
      have : r.id = db.seq + 1 := by rw [he]; rfl
      omega
  · rw [hrows, List.filter_append]
    have h1 : (db.rows.filter (fun x => x.place_id != some s)).filter
        (fun x => x.place_id == some s) = [] := by
      rw [List.filter_eq_nil_iff]
      intro a ha
      have := List.of_mem_filter ha
      simp only [bne_iff_ne, ne_eq] at this
      simp [this]
    rw [h1]
    simp [List.filter_cons, h2]
  · unfold DB.get_place_by_google_id
    rw [hrows, List.find?_append]
    have h1 : (db.rows.filter (fun x => x.place_id != some s)).find?
        (fun x => x.place_id == some s) = none := by
      rw [List.find?_eq_none]
      intro a ha
      have := List.of_mem_filter ha
      simp only [bne_iff_ne, ne_eq] at this
      simp [this]
    rw [h1]
    simp only [Option.none_or]
    rw [List.find?_cons_of_pos _ (by simp [h2])]
    rfl

/-- **C1** counterexample to the claim as stated: the first save of
external id `"X"` allocates row id `1`, yet after the second save the
surviving row's id is `2`, not `1` — the original row's id is not reused. -/
theorem upsert_same_place_id_counterexample :
    (DB.save_place { rows := [], seq := 0 } placeX1 "t1").2 = 1 ∧
    ((DB.save_place (DB.save_place { rows := [], seq := 0 } placeX1 "t1").1
        placeX2 "t2").1.rows.map (fun r => r.id)) = [2] := by decide

/-- **C1** witness: the amended theorem applied to the concrete one-row
database `dbA` and the place `placeB` sharing its external id. -/
theorem upsert_same_place_id_witness :
    (dbA.save_place placeB "t2").1.get_place_by_google_id "gp1" =
      some { placeB with
        id := some 2
        updated_at := "t2"
        opening_hours := serializeOpeningHours placeB.opening_hours } := by
  have h := upsert_same_place_id dbA placeB rowA "gp1" "t2"
    (by decide) (by decide) rfl rfl
  exact h.2.2.2.2

/-! ## C2: save/get round-trip -/

/-- **C2** (amended).  Saving any record and reading it back by the
returned id yields the record field-for-field, except that: the read-back
`id` is the freshly allocated row id, `updated_at` is the save time (the
save itself refreshes it), and an *empty* `opening_hours` mapping does
**not** round-trip — `json.dumps(oh) if oh else None` stores `NULL` for
`{}`, which reads back as `None`.  All other compound fields, empty or
populated, and a populated `opening_hours`, round-trip exactly. -/
theorem save_get_roundtrip (db : DB) (p : SavedPlace) (now : String)
    (hwf : db.WF) :
    (db.save_place p now).1.get_place (db.save_place p now).2 =
      some { p with
        id := some (db.seq + 1)
        updated_at := now
        opening_hours := serializeOpeningHours p.opening_hours } := by
  obtain ⟨hrows, -, hret⟩ := save_place_unfold db p now
  unfold DB.get_place
  rw [hret, hrows, List.find?_append]
  have h1 : (match p.place_id with
       | none => db.rows
       | some s => db.rows.filter (fun r => r.place_id != some s)).find?
        (fun (x : PlaceRow) => x.id == db.seq + 1) = none := by
    rw [List.find?_eq_none]
    intro a ha
    have hle : a.id ≤ db.seq := (hwf.2.1 a (mem_of_mem_saveKept db p ha)).2
    simp only [beq_iff_eq]
    omega
  rw [h1]
  simp only [Option.none_or]
  rw [List.find?_cons_of_pos _ (by simp [SavedPlace.toRow])]
  rfl

/-- **C2** counterexample to the claim as stated: a record whose
`opening_hours` is the empty mapping reads back with `opening_hours =
None`, so the compound field does not round-trip when empty. -/
theorem save_get_roundtrip_counterexample :
    ((DB.save_place { rows := [], seq := 0 }
        { name := "E", address := "e", opening_hours := some [] } "t1").1.get_place
          1).map (fun q => q.opening_hours) = some none ∧
    ({ name := "E", address := "e", opening_hours := some [] } :
        SavedPlace).opening_hours = some [] := by decide

/-- **C2** witness: the amended round-trip applied to `dbA` and a fully
populated record. -/
theorem save_get_roundtrip_witness :
    (dbA.save_place placeB "t2").1.get_place (dbA.save_place placeB "t2").2 =
      some { placeB with
        id := some 2
        updated_at := "t2"
        opening_hours := serializeOpeningHours placeB.opening_hours } := by
  have h := save_get_roundtrip dbA placeB "t2" (by decide)
  exact h

/-! ## C9: save never reads the record's id -/

/-- A record with a database id but no external id, as obtained from a
previous `get`, used to exercise the duplicate-insert behaviour. -/
def placeC : SavedPlace :=
  { id := some 1, name := "Dup", address := "d"
    created_at := "c3", updated_at := "c3" }

/-- **C9**.  `save_place` never reads `place.id` (the `INSERT` column list
omits `id`): saving a record whose `id` is set but whose `place_id` is
null appends a brand-new row under the fresh id `seq + 1`, leaving the
existing row with that id untouched, so a subsequent `get_place` on the
original id still returns the unmodified original row. -/
theorem save_ignores_id (db : DB) (p : SavedPlace) (i : Int) (r : PlaceRow)
    (now : String) (hwf : db.WF) (hpid : p.place_id = none)
    (hpi : p.id = some i) (hr : r ∈ db.rows) (hri : r.id = i) :
    (∀ j : Option Int, db.save_place { p with id := j } now = db.save_place p now) ∧
    (db.save_place p now).1.rows =
      db.rows ++ [SavedPlace.toRow { p with updated_at := now } (db.seq + 1)] ∧
    (db.save_place p now).2 ≠ i ∧
    (db.save_place p now).1.get_place i = some (row_to_place r) := by
  obtain ⟨hrows, -, hret⟩ := save_place_unfold db p now
  have hkept : (match p.place_id with
       | none => db.rows
       | some t => db.rows.filter (fun x => x.place_id != some t)) = db.rows := by
    rw [hpid]
  rw [hkept] at hrows
  have hidle : r.id ≤ db.seq := (hwf.2.1 r hr).2
  refine ⟨fun j => rfl, hrows, ?_, ?_⟩
  · rw [hret]; omega
  · unfold DB.get_place
    rw [hrows, List.find?_append]
    have hfind : db.rows.find? (fun x => x.id == i) = some r := by
      rw [← hri]
      exact find?_id_of_mem hwf.1 hr
    rw [hfind]
    rfl

/-- **C9** witness: saving `placeC` (which carries `id = 1`, the id of the
stored row `rowA`, and no `place_id`) into `dbA` leaves `get_place 1`
returning the unmodified original row. -/
theorem save_ignores_id_witness :
    (dbA.save_place placeC "t3").1.get_place 1 = some (row_to_place rowA) :=
  (save_ignores_id dbA placeC 1 rowA "t3" (by decide) rfl rfl
    (by decide) rfl).2.2.2

/-! ## C5 and C6: the update operation -/

theorem update_place_of_empty (db : DB) (pid : Int) (u : FieldUpdates)
    (now : String) (hu : u.isEmpty = true) :
    db.update_place pid u now = .ok (db, false) := by
  unfold DB.update_place
  rw [if_pos hu]

theorem update_place_of_no_row (db : DB) (pid : Int) (u : FieldUpdates)
    (now : String) (hu : u.isEmpty = false)
    (hf : db.rows.find? (fun r => r.id == pid) = none) :
    db.update_place pid u now = .ok (db, false) := by
  unfold DB.update_place
  rw [if_neg (by simp [hu]), hf]

theorem update_place_of_collision (db : DB) (pid : Int) (u : FieldUpdates)
    (now : String) (row : PlaceRow) (hu : u.isEmpty = false)
    (hf : db.rows.find? (fun r => r.id == pid) = some row)
    (hc : collides db pid (updatedPlace row u now) = true) :
    db.update_place pid u now =
      .error "UNIQUE constraint failed: saved_places.place_id" := by
  unfold DB.update_place
  rw [if_neg (by simp [hu]), hf]
  simp only [hc, if_true]

theorem update_place_of_ok (db : DB) (pid : Int) (u : FieldUpdates)
    (now : String) (row : PlaceRow) (hu : u.isEmpty = false)
    (hf : db.rows.find? (fun r => r.id == pid) = some row)
    (hc : collides db pid (updatedPlace row u now) = false) :
    db.update_place pid u now =
      .ok ({ db with
              rows := db.rows.map (fun r =>
                if r.id == pid then writeRow r (updatedPlace row u now) else r) },
            true) := by
  unfold DB.update_place
  rw [if_neg (by simp [hu]), hf]
  simp only [hc, Bool.false_eq_true, if_false]

/-- Under the `UNIQUE` invariant, the `UPDATE` of row `pid` collides
exactly when the keyword updates set `place_id` to a non-null value
already held by a different row. -/
theorem collides_iff (db : DB) (pid : Int) (u : FieldUpdates) (now : String)
    (row : PlaceRow) (hwf : db.WF)
    (hrowmem : row ∈ db.rows) (hrowid : row.id = pid) :
    collides db pid (updatedPlace row u now) = true ↔
      ∃ s, u.place_id = some (some s) ∧
        ∃ x ∈ db.rows, x.id ≠ pid ∧ x.place_id = some s := by
  have hplace : (updatedPlace row u now).place_id = u.place_id.getD row.place_id := by
    simp [updatedPlace, applyUpdates, row_to_place]
  unfold collides
  rw [hplace]
  cases hup : u.place_id with
  | none =>
      simp only [Option.getD_none]
      constructor
      · intro h
        exfalso
        rw [Bool.and_eq_true] at h
        obtain ⟨hsome, hany⟩ := h
        obtain ⟨x, hx, hxx⟩ := List.any_eq_true.mp hany
        rw [Bool.and_eq_true] at hxx
        obtain ⟨hxid, hxp⟩ := hxx
        obtain ⟨t, ht⟩ := Option.isSome_iff_exists.mp hsome
        have hxpt : x.place_id = some t := by
          rw [ht] at hxp
          simpa using hxp
        have hrt : row.place_id = some t := ht
        have : x = row := eq_of_nodup_filterMap hwf.2.2.1 hx hrowmem hxpt hrt
        rw [this] at hxid
        simp [hrowid] at hxid
      · rintro ⟨s, hs, -⟩
        cases hs
  | some newpid =>
      cases newpid with
      | none =>
          simp
      | some s =>
          simp only [Option.getD_some, Option.isSome_some, Bool.true_and]
          rw [List.any_eq_true]
          constructor
          · rintro ⟨x, hx, hxx⟩
            rw [Bool.and_eq_true] at hxx
            obtain ⟨hxid, hxp⟩ := hxx
            exact ⟨s, rfl, x, hx, by simpa using hxid, by simpa using hxp⟩
          · rintro ⟨t, ht, x, hx, hxid, hxp⟩
            obtain rfl : t = s := by simpa using ht.symm
            exact ⟨x, hx, by simp [hxid, hxp]⟩

/-- **C5** (amended).  `update_place` returns `false` (without raising)
exactly when the keyword mapping is empty or no row carries the id, and
otherwise returns `true` — *unless* the updates set `place_id` to a
non-null value already held by a different row, in which case the
`UPDATE` violates the `UNIQUE` constraint and an uncaught
`IntegrityError` propagates instead of a boolean. -/
theorem update_place_result (db : DB) (pid : Int) (u : FieldUpdates)
    (now : String) (hwf : db.WF) :
    (db.update_place pid u now = .ok (db, false) ↔
      (u.isEmpty = true ∨ ∀ r ∈ db.rows, r.id ≠ pid)) ∧
    ((∃ e, db.update_place pid u now = .error e) ↔
      (u.isEmpty = false ∧ (∃ r ∈ db.rows, r.id = pid) ∧
       ∃ s, u.place_id = some (some s) ∧
         ∃ x ∈ db.rows, x.id ≠ pid ∧ x.place_id = some s)) ∧
    ((∃ db2, db.update_place pid u now = .ok (db2, true)) ↔
      (u.isEmpty = false ∧ (∃ r ∈ db.rows, r.id = pid) ∧
       ¬ ∃ s, u.place_id = some (some s) ∧
         ∃ x ∈ db.rows, x.id ≠ pid ∧ x.place_id = some s)) := by
  cases hu : u.isEmpty with
  | true =>
      have heq := update_place_of_empty db pid u now hu
      refine ⟨iff_of_true heq (Or.inl rfl), ?_, ?_⟩
      · constructor
        · rintro ⟨e, he⟩
          rw [heq] at he
          cases he
        · rintro ⟨hfalse, -, -⟩
          exact Bool.noConfusion hfalse
      · constructor
        · rintro ⟨db2, hd⟩
          rw [heq] at hd
          simp at hd
        · rintro ⟨hfalse, -, -⟩
          exact Bool.noConfusion hfalse
  | false =>
      cases hf : db.rows.find? (fun r => r.id == pid) with
      | none =>
          have hnone : ∀ x ∈ db.rows, x.id ≠ pid := by
            intro x hx
            have := List.find?_eq_none.mp hf x hx
            simpa using this
          have heq := update_place_of_no_row db pid u now hu hf
          refine ⟨iff_of_true heq (Or.inr hnone), ?_, ?_⟩
          · constructor
            · rintro ⟨e, he⟩
              rw [heq] at he
              cases he
            · rintro ⟨-, ⟨x, hx, hxid⟩, -⟩
              exact absurd hxid (hnone x hx)
          · constructor
            · rintro ⟨db2, hd⟩
              rw [heq] at hd
              simp at hd
            · rintro ⟨-, ⟨x, hx, hxid⟩, -⟩
              exact absurd hxid (hnone x hx)
      | some row =>
          have hrowmem : row ∈ db.rows := List.mem_of_find?_eq_some hf
          have hrowid : row.id = pid := by
            have := List.find?_some hf
            simpa using this
          have hexists : ∃ x ∈ db.rows, x.id = pid := ⟨row, hrowmem, hrowid⟩
          have hciff := collides_iff db pid u now row hwf hrowmem hrowid
          cases hc : collides db pid (updatedPlace row u now) with
          | true =>
              have heq := update_place_of_collision db pid u now row hu hf hc
              have hcc := hciff.mp hc
              refine ⟨?_, iff_of_true ⟨_, heq⟩ ⟨rfl, hexists, hcc⟩, ?_⟩
              · constructor
                · intro he
                  rw [heq] at he
                  cases he
                · rintro (h1 | h2)
                  · exact Bool.noConfusion h1
                  · exact absurd hrowid (h2 row hrowmem)
              · constructor
                · rintro ⟨db2, hd⟩
                  rw [heq] at hd
                  cases hd
                · rintro ⟨-, -, hnc⟩
                  exact absurd hcc hnc
          | false =>
              have heq := update_place_of_ok db pid u now row hu hf hc
              have hnc : ¬ ∃ s, u.place_id = some (some s) ∧
                  ∃ x ∈ db.rows, x.id ≠ pid ∧ x.place_id = some s := by
                intro hcc
                rw [← hciff] at hcc
                rw [hc] at hcc
                cases hcc
              refine ⟨?_, ?_, iff_of_true ⟨_, heq⟩ ⟨rfl, hexists, hnc⟩⟩
              · constructor
                · intro he
                  rw [heq] at he
                  simp at he
                · rintro (h1 | h2)
                  · exact Bool.noConfusion h1
                  · exact absurd hrowid (h2 row hrowmem)
              · constructor
                · rintro ⟨e, he⟩
                  rw [heq] at he
                  cases he
                · rintro ⟨-, -, hcc⟩
                  exact absurd hcc hnc

/-- A second stored row, with a distinct external id. -/
def rowB : PlaceRow :=
  { id := 2, name := "Pub", address := "3 St", latitude := 5, longitude := 6
    place_id := some "b", types := some [], rating := none
    user_ratings_total := none, price_level := none, website := none
    phone_number := none, opening_hours := none, photos := some []
    notes := none, tags := some [], created_at := "t1", updated_at := "t1" }

/-- A row with external id `"a"`, companion to `rowB`. -/
def rowC : PlaceRow :=
  { id := 1, name := "Inn", address := "4 St", latitude := 7, longitude := 8
    place_id := some "a", types := some ["inn"], rating := some 3
    user_ratings_total := some 2, price_level := some 2, website := none
    phone_number := none, opening_hours := none, photos := some []
    notes := some "old", tags := some ["stay"], created_at := "t2"
    updated_at := "t2" }

/-- A two-row database satisfying the invariant. -/
def dbTwo : DB := { rows := [rowC, rowB], seq := 2 }

/-- **C5** counterexample to the claim as stated: with two stored rows,
a non-empty update of an existing id that sets `place_id` to the other
row's external id neither returns `false` nor `true` — it raises
(`UNIQUE constraint failed`), so "returns true otherwise" is false. -/
theorem update_place_result_counterexample :
    dbTwo.update_place 1 { place_id := some (some "b") } "t9" =
      .error "UNIQUE constraint failed: saved_places.place_id" := rfl

/-- **C5** witness: a non-empty update of a missing id returns `false`. -/
theorem update_place_result_witness :
    dbTwo.update_place 3 { notes := some (some "x") } "t4" = .ok (dbTwo, false) :=
  (update_place_result dbTwo 3 { notes := some (some "x") } "t4"
    (by decide)).1.mpr (Or.inr (by decide))

theorem some_getD_of_isSome {α : Type} {o : Option α} (h : o.isSome = true)
    (d : α) : some (o.getD d) = o := by
  cases o with
  | none => cases h
  | some v => rfl

theorem serializeOpeningHours_of_ne_empty
    {oh : Option (List (String × String))} (h : oh ≠ some []) :
    serializeOpeningHours oh = oh := by
  cases oh with
  | none => rfl
  | some m =>
      show (if m = [] then none else some m) = some m
      rw [if_neg]
      intro hm
      exact h (by rw [hm])

/-- **C6**.  Updating only `notes` on an existing id rewrites exactly that
row, changing only its `notes` and `updated_at` columns; every other
column — `created_at` and `id` included — keeps its prior value, and the
call returns `true`. -/
theorem update_notes_frame (db : DB) (pid : Int) (v : Option String)
    (now : String) (r : PlaceRow) (hwf : db.WF) (hr : r ∈ db.rows)
    (hid : r.id = pid) :
    db.update_place pid { notes := some v } now =
      .ok ({ db with rows := db.rows.map (fun x =>
              if x.id = pid then { x with notes := v, updated_at := now }
              else x) },
            true) := by
  have hu : ({ notes := some v } : FieldUpdates).isEmpty = false := rfl
  have hf : db.rows.find? (fun x => x.id == pid) = some r := by
    rw [← hid]
    exact find?_id_of_mem hwf.1 hr
  have hplace_pid : (updatedPlace r { notes := some v } now).place_id
      = r.place_id := by
    simp [updatedPlace, applyUpdates, row_to_place]
  have hc : collides db pid (updatedPlace r { notes := some v } now) = false := by
    unfold collides
    rw [hplace_pid]
    cases hrp : r.place_id with
    | none => simp
    | some t =>
        simp only [Option.isSome_some, Bool.true_and]
        rw [List.any_eq_false]
        intro x hx hxx
        rw [Bool.and_eq_true] at hxx
        obtain ⟨hxid, hxp⟩ := hxx
        have hxpt : x.place_id = some t := by simpa using hxp
        have hxr : x = r := eq_of_nodup_filterMap hwf.2.2.1 hx hr hxpt hrp
        rw [hxr] at hxid
        simp [hid] at hxid
  rw [update_place_of_ok db pid { notes := some v } now r hu hf hc]
  refine congrArg (fun l => Except.ok (({ rows := l, seq := db.seq } : DB), true)) ?_
  apply List.map_congr_left
  intro x hx
  by_cases hxid : x.id = pid
  · rw [if_pos (by simpa using hxid), if_pos hxid]
    have hxr : x = r := eq_of_nodup_map hwf.1 hx hr (by rw [hxid, hid])
    subst hxr
    obtain ⟨hoh, hty, hph, htg⟩ := hwf.2.2.2 x hx
    unfold writeRow updatedPlace applyUpdates row_to_place
    simp only [Option.getD_none, Option.getD_some]
    rw [serializeOpeningHours_of_ne_empty hoh]
    rw [some_getD_of_isSome hty, some_getD_of_isSome hph, some_getD_of_isSome htg]
  · rw [if_neg (by simpa using hxid), if_neg hxid]

/-- **C6** witness: the frame theorem applied to `dbTwo` and its row
with id `1`. -/
theorem update_notes_frame_witness :
    dbTwo.update_place 1 { notes := some (some "new") } "t5" =
      .ok ({ dbTwo with rows := dbTwo.rows.map (fun x =>
              if x.id = 1 then { x with notes := some "new", updated_at := "t5" }
              else x) },
            true) :=
  update_notes_frame dbTwo 1 (some "new") "t5" rowC (by decide) (by decide) rfl

/-! ## C7: the reported average rating -/

/-- A single row rated exactly `0`. -/
def rowZero : PlaceRow :=
  { id := 1, name := "Zero", address := "0 St", latitude := 0, longitude := 0
    place_id := none, types := some [], rating := some 0
    user_ratings_total := none, price_level := none, website := none
    phone_number := none, opening_hours := none, photos := some []
    notes := none, tags := some [], created_at := "t0", updated_at := "t0" }

/-- The one-row database whose only rating is `0`. -/
def dbZero : DB := { rows := [rowZero], seq := 1 }

/-- **C7** (amended).  The statistics report the average of the non-null
ratings rounded (half-to-even, on the exact value) to 2 decimal places,
but the average is reported as absent not only when no rated rows exist:
Python's float truthiness (`if avg_rating`) also drops an average that is
exactly `0`. -/
theorem statistics_average (db : DB) :
    (db.get_statistics).average_rating =
      if db.ratings = [] ∨ db.ratings.sum / (db.ratings.length : ℚ) = 0 then none
      else some (round2 (db.ratings.sum / (db.ratings.length : ℚ))) := by
  unfold DB.get_statistics DB.avgRating
  by_cases h1 : db.ratings = []
  · simp [h1]
  · by_cases h2 : db.ratings.sum / (db.ratings.length : ℚ) = 0
    · simp [h1, h2]
    · simp [h1, h2]

/-- **C7** counterexample to the claim as stated: a database with one
rated row (rating `0`) reports the average as absent even though a rated
row exists. -/
theorem statistics_average_counterexample :
    (dbZero.get_statistics).average_rating = none ∧ dbZero.ratings ≠ [] := by
  constructor
  · have h : dbZero.avgRating = some 0 := by
      have h0 : dbZero.ratings = [0] := rfl
      unfold DB.avgRating
      rw [h0]
      simp
    show (match dbZero.avgRating with
      | none => none
      | some a => if a = 0 then none else some (round2 a)) = none
    rw [h]
    simp
  · decide

/-! ## C10: limit = 0 is treated as no limit -/

/-- **C10**.  Passing `limit = 0` to `get_all_places` or `search_places`
behaves exactly like omitting the limit (`if limit:` is false for `0`):
the full unpaginated result set is returned — a permutation of all stored
rows for `get_all_places` — and the `offset` argument is ignored. -/
theorem limit_zero_full_results (db : DB) (offset : Int) (q : String) :
    db.get_all_places (some 0) offset = db.get_all_places none 0 ∧
    (db.get_all_places (some 0) offset).Perm (db.rows.map row_to_place) ∧
    db.search_places q (some 0) = db.search_places q none := by
  refine ⟨rfl, ?_, rfl⟩
  show ((db.rows.insertionSort createdDescLe).map row_to_place).Perm
    (db.rows.map row_to_place)
  exact (List.perm_insertionSort _ _).map _

/-! ## C8: the JSON import -/

/-- Whether one JSON array element imports successfully: it must be an
object, every key a `SavedPlace` attribute, every directly-bound value a
SQL scalar. -/
def elemGood : Json → Bool
  | .obj fields => (objImportFailure fields).isNone
  | _ => false

theorem importLoop_all_obj (elems : List Json)
    (h : ∀ j ∈ elems, ∃ f, j = Json.obj f) :
    ∃ errs : List String,
      importLoop elems = .ok (elems.countP elemGood, errs) ∧
      errs.length = elems.countP (fun j => !(elemGood j)) := by
  induction elems with
  | nil => exact ⟨[], rfl, rfl⟩
  | cons e rest ih =>
      obtain ⟨f, rfl⟩ := h e (List.mem_cons_self e rest)
      obtain ⟨errs, hloop, hlen⟩ :=
        ih (fun j hj => h j (List.mem_cons_of_mem _ hj))
      unfold importLoop
      cases hof : objImportFailure f with
      | none =>
          refine ⟨errs, ?_, ?_⟩
          · rw [hloop]
            simp [List.countP_cons, elemGood, hof, Except.map]
          · simp [List.countP_cons, elemGood, hof, hlen]
      | some msg =>
          refine ⟨("Error importing place \x27" ++ importName f ++ "\x27: " ++ msg)
              :: errs, ?_, ?_⟩
          · rw [hloop]
            simp [List.countP_cons, elemGood, hof, Except.map]
          · simp [List.countP_cons, elemGood, hof, hlen]

/-- **C8** (amended).  A top-level parse failure yields a single failure
result carrying the parse error message.  For a parsed array all of whose
elements are JSON objects, each object that fails record construction
contributes exactly one collected error message while the batch continues,
and the result reports the number of successfully imported records
together with the per-record error list.  (An array element that is *not*
an object instead crashes the error handler — see the counterexample.) -/
theorem import_places_report :
    (∀ e : String, import_places_from_json (.error e) =
      .ok { success := false, message := "Invalid JSON data: " ++ e,
            imported_count := none, errors := none }) ∧
    (∀ elems : List Json, (∀ j ∈ elems, ∃ f, j = Json.obj f) →
      ∃ errs : List String,
        import_places_from_json (.ok (Json.arr elems)) =
          .ok { success := true
                message := "Imported " ++ toString (elems.countP elemGood) ++
                  " places successfully"
                imported_count := some (elems.countP elemGood)
                errors := some errs } ∧
        errs.length = elems.countP (fun j => !(elemGood j))) := by
  refine ⟨fun e => rfl, fun elems h => ?_⟩
  obtain ⟨errs, hloop, hlen⟩ := importLoop_all_obj elems h
  refine ⟨errs, ?_, hlen⟩
  simp [import_places_from_json, hloop]

/-- **C8** counterexample to the claim as stated: importing the JSON array
`[1]` does not collect a per-record error and continue — the `except`
handler itself crashes (`place_data.get` on an `int`), and the uncaught
`AttributeError` aborts the whole import. -/
theorem import_places_counterexample :
    import_places_from_json (.ok (Json.arr [Json.num 1])) =
      .error "AttributeError: object has no attribute \x27get\x27" := rfl

/-- **C8** witness: a two-element batch — one clean object, one object
with an unknown key — imports one record and collects one error. -/
theorem import_places_report_witness :
    ∃ errs : List String,
      import_places_from_json (.ok (Json.arr
        [Json.obj [("name", Json.str "G")],
         Json.obj [("bogus", Json.null)]])) =
        .ok { success := true
              message := "Imported " ++ toString
                (([Json.obj [("name", Json.str "G")],
                   Json.obj [("bogus", Json.null)]]).countP elemGood) ++
                " places successfully"
              imported_count := some (([Json.obj [("name", Json.str "G")],
                Json.obj [("bogus", Json.null)]]).countP elemGood)
              errors := some errs } ∧
      errs.length = (([Json.obj [("name", Json.str "G")],
        Json.obj [("bogus", Json.null)]]).countP (fun j => !(elemGood j))) :=
  import_places_report.2
    [Json.obj [("name", Json.str "G")], Json.obj [("bogus", Json.null)]]
    (by
      intro j hj
      rcases List.mem_cons.mp hj with rfl | hj2
      · exact ⟨_, rfl⟩
      · rcases List.mem_cons.mp hj2 with rfl | hj3
        · exact ⟨_, rfl⟩
        · cases hj3)

/-! ## C4: the radius query computes haversine distances -/

theorem sin_sq_half_eq (y : ℝ) :
    Real.sin (y / 2) ^ 2 = (1 - Real.cos y) / 2 := by
  have h2 : 2 * (y / 2) = y := by ring
  rw [Real.sin_sq_eq_half_sub, h2]
  ring

theorem arccos_eq_two_arcsin_sqrt {x : ℝ} (h1 : -1 ≤ x) (h2 : x ≤ 1) :
    Real.arccos x = 2 * Real.arcsin (Real.sqrt ((1 - x) / 2)) := by
  have h0 : 0 ≤ Real.arccos x := Real.arccos_nonneg x
  have hpi : Real.arccos x ≤ Real.pi := Real.arccos_le_pi x
  have hpip : 0 < Real.pi := Real.pi_pos
  have hs : Real.sin (Real.arccos x / 2) =
      Real.sqrt ((1 - Real.cos (Real.arccos x)) / 2) :=
    Real.sin_half_eq_sqrt h0 (by linarith)
  rw [Real.cos_arccos h1 h2] at hs
  have ha : Real.arcsin (Real.sin (Real.arccos x / 2)) = Real.arccos x / 2 :=
    Real.arcsin_sin (by linarith) (by linarith)
  rw [hs] at ha
  rw [ha]
  ring

theorem cos_expr_mem_Icc (a b d : ℝ) :
    -1 ≤ Real.cos a * Real.cos b * Real.cos d + Real.sin a * Real.sin b ∧
    Real.cos a * Real.cos b * Real.cos d + Real.sin a * Real.sin b ≤ 1 := by
  have e : Real.cos a * Real.cos b * Real.cos d + Real.sin a * Real.sin b
      = (1 + Real.cos d) / 2 * Real.cos (a - b)
        - (1 - Real.cos d) / 2 * Real.cos (a + b) := by
    rw [Real.cos_sub, Real.cos_add]
    ring
  have hd1 : -1 ≤ Real.cos d := Real.neg_one_le_cos d
  have hd2 : Real.cos d ≤ 1 := Real.cos_le_one d
  have hab1 : -1 ≤ Real.cos (a - b) := Real.neg_one_le_cos _
  have hab2 : Real.cos (a - b) ≤ 1 := Real.cos_le_one _
  have hab3 : -1 ≤ Real.cos (a + b) := Real.neg_one_le_cos _
  have hab4 : Real.cos (a + b) ≤ 1 := Real.cos_le_one _
  constructor
  · rw [e]
    nlinarith [mul_nonneg (by linarith : (0:ℝ) ≤ 1 + Real.cos d)
        (by linarith : (0:ℝ) ≤ 1 + Real.cos (a - b)),
      mul_nonneg (by linarith : (0:ℝ) ≤ 1 - Real.cos d)
        (by linarith : (0:ℝ) ≤ 1 - Real.cos (a + b))]
  · rw [e]
    nlinarith [mul_nonneg (by linarith : (0:ℝ) ≤ 1 + Real.cos d)
        (by linarith : (0:ℝ) ≤ 1 - Real.cos (a - b)),
      mul_nonneg (by linarith : (0:ℝ) ≤ 1 - Real.cos d)
        (by linarith : (0:ℝ) ≤ 1 + Real.cos (a + b))]

/-- The spherical-law-of-cosines expression the SQL query evaluates is,
on the nose, the haversine great-circle distance the spec describes. -/
theorem sqlDistanceR_eq_haversineDistanceR (qlat qlon plat plon : ℝ) :
    sqlDistanceR qlat qlon plat plon = haversineDistanceR qlat qlon plat plon := by
  unfold sqlDistanceR haversineDistanceR
  obtain ⟨h1, h2⟩ := cos_expr_mem_Icc (radiansR qlat) (radiansR plat)
    (radiansR plon - radiansR qlon)
  have hsum : Real.sin ((radiansR plat - radiansR qlat) / 2) ^ 2 +
      Real.cos (radiansR qlat) * Real.cos (radiansR plat) *
        Real.sin ((radiansR plon - radiansR qlon) / 2) ^ 2
      = (1 - (Real.cos (radiansR qlat) * Real.cos (radiansR plat) *
          Real.cos (radiansR plon - radiansR qlon) +
          Real.sin (radiansR qlat) * Real.sin (radiansR plat))) / 2 := by
    rw [sin_sq_half_eq (radiansR plat - radiansR qlat),
      sin_sq_half_eq (radiansR plon - radiansR qlon),
      Real.cos_sub (radiansR plat) (radiansR qlat)]
    ring
  rw [hsum, arccos_eq_two_arcsin_sqrt h1 h2]
  ring

/-- **C4**.  `get_places_by_location` returns exactly the stored rows
whose great-circle distance from the query point — the Haversine formula
on a sphere of radius 6371 km — is at most `radius_km` (as a permutation
of the haversine-filtered table, i.e. the same rows with multiplicity),
ordered ascending by that distance. -/
theorem places_by_location_spec (db : DB) (lat lon radius : ℚ) :
    (db.get_places_by_location lat lon radius).Perm
      ((db.rows.filter (fun r =>
        @decide (haversineDistanceR (lat : ℝ) (lon : ℝ)
            (r.latitude : ℝ) (r.longitude : ℝ) ≤ (radius : ℝ))
          (Classical.propDecidable _))).map row_to_place) ∧
    List.Sorted (· ≤ ·) ((db.get_places_by_location lat lon radius).map
      (fun p => haversineDistanceR (lat : ℝ) (lon : ℝ)
        (p.latitude : ℝ) (p.longitude : ℝ))) := by
  have hfeq : ∀ r : PlaceRow, distKeep lat lon radius r =
      @decide (haversineDistanceR (lat : ℝ) (lon : ℝ)
          (r.latitude : ℝ) (r.longitude : ℝ) ≤ (radius : ℝ))
        (Classical.propDecidable _) := by
    intro r
    unfold distKeep rowDistance
    rw [decide_eq_decide, sqlDistanceR_eq_haversineDistanceR]
  have hfilter : db.rows.filter (distKeep lat lon radius) =
      db.rows.filter (fun r =>
        @decide (haversineDistanceR (lat : ℝ) (lon : ℝ)
            (r.latitude : ℝ) (r.longitude : ℝ) ≤ (radius : ℝ))
          (Classical.propDecidable _)) :=
    List.filter_congr (fun a _ => hfeq a)
  constructor
  · have hperm : (@List.insertionSort PlaceRow
        (fun a b => rowDistance lat lon a ≤ rowDistance lat lon b)
        (fun _ _ => Classical.propDecidable _)
        (db.rows.filter (distKeep lat lon radius))).Perm
        (db.rows.filter (distKeep lat lon radius)) :=
      List.perm_insertionSort _ _
    rw [← hfilter]
    exact hperm.map row_to_place
  · haveI instTot : IsTotal PlaceRow
        (fun a b => rowDistance lat lon a ≤ rowDistance lat lon b) :=
      ⟨fun a b => le_total _ _⟩
    haveI instTrans : IsTrans PlaceRow
        (fun a b => rowDistance lat lon a ≤ rowDistance lat lon b) :=
      ⟨fun _ _ _ hab hbc => le_trans hab hbc⟩
    have hsorted : List.Pairwise
        (fun a b => rowDistance lat lon a ≤ rowDistance lat lon b)
        (@List.insertionSort PlaceRow
          (fun a b => rowDistance lat lon a ≤ rowDistance lat lon b)
          (fun _ _ => Classical.propDecidable _)
          (db.rows.filter (distKeep lat lon radius))) :=
      List.sorted_insertionSort _ _
    have hH : ∀ a b : PlaceRow,
        rowDistance lat lon a ≤ rowDistance lat lon b →
        haversineDistanceR (lat : ℝ) (lon : ℝ)
            ((row_to_place a).latitude : ℝ) ((row_to_place a).longitude : ℝ) ≤
          haversineDistanceR (lat : ℝ) (lon : ℝ)
            ((row_to_place b).latitude : ℝ) ((row_to_place b).longitude : ℝ) := by
      intro a b hab
      show haversineDistanceR (lat : ℝ) (lon : ℝ)
          (a.latitude : ℝ) (a.longitude : ℝ) ≤
        haversineDistanceR (lat : ℝ) (lon : ℝ)
          (b.latitude : ℝ) (b.longitude : ℝ)
      rw [← sqlDistanceR_eq_haversineDistanceR, ← sqlDistanceR_eq_haversineDistanceR]
      exact hab
    have hs1 : List.Pairwise (fun x y : SavedPlace =>
        haversineDistanceR (lat : ℝ) (lon : ℝ)
            (x.latitude : ℝ) (x.longitude : ℝ) ≤
          haversineDistanceR (lat : ℝ) (lon : ℝ)
            (y.latitude : ℝ) (y.longitude : ℝ))
        ((@List.insertionSort PlaceRow
          (fun a b => rowDistance lat lon a ≤ rowDistance lat lon b)
          (fun _ _ => Classical.propDecidable _)
          (db.rows.filter (distKeep lat lon radius))).map row_to_place) :=
      List.Pairwise.map row_to_place hH hsorted
    rw [List.Sorted, List.pairwise_map]
    exact hs1

/-- Unfolding lemma for the radius query. -/
theorem get_places_by_location_def (db : DB) (lat lon radius : ℚ) :
    db.get_places_by_location lat lon radius =
      (@List.insertionSort PlaceRow
        (fun a b => rowDistance lat lon a ≤ rowDistance lat lon b)
        (fun _ _ => Classical.propDecidable _)
        (db.rows.filter (distKeep lat lon radius))).map row_to_place := rfl

/-! ## C3: the distance attribute is never attached -/

/-- A stored row at the origin, within any positive radius of a query at
the origin. -/
def rowOrigin : PlaceRow :=
  { id := 1, name := "Origin", address := "0", latitude := 0, longitude := 0
    place_id := none, types := some [], rating := none
    user_ratings_total := none, price_level := none, website := none
    phone_number := none, opening_hours := none, photos := some []
    notes := none, tags := some [], created_at := "t0", updated_at := "t0" }

/-- The one-row database holding `rowOrigin`. -/
def dbOrigin : DB := { rows := [rowOrigin], seq := 1 }

/-- **C3** (code bug).  Querying `dbOrigin` from the origin with radius 10
does return the stored record, but its `distance_km` is `None`:
`_row_to_place` rebuilds the `SavedPlace` from the named columns only,
discarding the SQL `distance` alias, so the `getattr(place, 'distance',
None)` in the server tool always takes its fallback — no returned record
ever carries the computed distance. -/
theorem location_distance_attribute_missing :
    (server_get_places_by_location dbOrigin 0 0 10).map
      (fun e => e.distance_km) = [none] := by
  have hd : rowDistance 0 0 rowOrigin = 0 := by
    unfold rowDistance sqlDistanceR radiansR rowOrigin
    norm_num [Real.arccos_one]
  have hk : distKeep 0 0 10 rowOrigin = true := by
    unfold distKeep
    exact decide_eq_true (by rw [hd]; norm_num)
  have hrows : dbOrigin.rows = [rowOrigin] := rfl
  have hfilter : dbOrigin.rows.filter (distKeep 0 0 10) = [rowOrigin] := by
    rw [hrows, List.filter_cons, if_pos hk]
    rfl
  have hget : dbOrigin.get_places_by_location 0 0 10 = [row_to_place rowOrigin] := by
    rw [get_places_by_location_def, hfilter]
    rfl
  unfold server_get_places_by_location
  rw [hget]
  rfl

end Coconuts
